import Mathlib

/-!
Shallow embedding of the POKEMON_DBGAS name-resolution / legality-validation
core (src/showdown_manager.py, src/tournament_teams_extraction.py,
src/move_resolver.py, src/pokedata_cache_manager.py) together with theorems
settling the frozen claims about it.

Modelling conventions:
* Python `dict`s become association lists `List (String × β)` in insertion
  order (CPython dicts iterate in insertion order); `dict.get` becomes `dfind`.
* Python string functions are modelled character-exactly for ASCII input.
  `unicodedata.normalize("NFKD", ·)` followed by `encode("ascii","ignore")`
  is the identity on ASCII text and drops non-ASCII characters; `to_id`
  models this by keeping exactly the ASCII alphanumeric characters.
* Python truthiness of an optional string (`if x:`) is `opt_truthy`.
* Python set iteration order is unspecified; every place the source iterates
  a set, the iteration result is order-independent (all candidate aliases of
  one record map to the same id), so a list in construction order is used.
* `difflib` similarity: `SequenceMatcher.ratio()` is 2*M/T where M is the
  total size of the matching blocks found by recursively taking the longest
  matching block (earliest in `a`, then earliest in `b`); no junk heuristic
  applies because every compared token is far shorter than 200 characters.
  The float comparison `ratio >= 0.72` coincides with the exact rational
  comparison `100*(2*M) >= 72*T` for all strings of combined length < 10^8,
  since distinct candidate rationals differ by far more than one double ulp.
-/

namespace PDB

/-- Python `\s` whitespace on ASCII text (re module, str.split, str.strip). -/
def pyIsSpace (c : Char) : Bool :=
  c = ' ' ∨ c = '\t' ∨ c = '\n' ∨ c = '\r' ∨ c.toNat = 11 ∨ c.toNat = 12

/-- Python `str.lower()` (ASCII: Char.toLower maps only A-Z). -/
def lowerStr (s : String) : String :=
  ⟨s.data.map Char.toLower⟩

/-- Python `str.strip()` on ASCII text. -/
def trimWs (s : String) : String :=
  ⟨((s.data.dropWhile pyIsSpace).reverse.dropWhile pyIsSpace).reverse⟩

/-- Python `needle in haystack` substring test. -/
def containsSub (needle haystack : String) : Bool :=
  (List.range (haystack.data.length + 1)).any fun i =>
    needle.data.isPrefixOf (haystack.data.drop i)

/-- `to_id` (all four source files): NFKD-normalize, drop non-ASCII, remove
every character that is not a letter or digit, lowercase.  The two orderings
in the sources (filter-then-lower and lower-then-filter) agree on ASCII. -/
def to_id (s : String) : String :=
  ⟨(s.data.filter Char.isAlphanum).map Char.toLower⟩

/-- Python truthiness of an optional string: `None` and `""` are falsy. -/
def opt_truthy : Option String → Bool
  | some s => s ≠ ""
  | none => false

/-- Generic assoc-list lookup modelling `dict.get` / `dict[...]`. -/
def dfind {β : Type} (k : String) : List (String × β) → Option β
  | [] => none
  | (k', v) :: rest => if k = k' then some v else dfind k rest

/-- Splits a character list into the maximal runs of characters satisfying
`keep`, dropping empty runs (models `str.split()` and `re.split` + filter). -/
def split_runs (keep : Char → Bool) : List Char → List Char → List (List Char)
  | [], acc => if acc.isEmpty then [] else [acc.reverse]
  | c :: rest, acc =>
    if keep c then split_runs keep rest (c :: acc)
    else if acc.isEmpty then split_runs keep rest []
    else acc.reverse :: split_runs keep rest []

/-- Python `str.split()` (split on whitespace runs, no empties). -/
def split_ws (cs : List Char) : List String :=
  (split_runs (fun c => ¬ pyIsSpace c) cs []).map fun t => ⟨t⟩

/-- `re.split(r"[^\w]+", text)` with empty pieces filtered out. -/
def split_word_runs (cs : List Char) : List String :=
  (split_runs (fun c => c.isAlphanum ∨ c = '_') cs []).map fun t => ⟨t⟩

/-- Python `str.capitalize()`: first character uppercased, rest lowercased. -/
def capFirst (t : String) : String :=
  match t.data with
  | [] => ""
  | c :: rest => ⟨Char.toUpper c :: rest.map Char.toLower⟩

/-- Fuel-based recursion for `dedupFirst`; fuel bounds the number of steps
and `l.length` always suffices because each step strictly shrinks the list
(`filter` never lengthens it), so the `0` case is unreachable. -/
def dedupFirstF : Nat → List String → List String
  | 0, _ => []
  | _, [] => []
  | f + 1, x :: rest => x :: dedupFirstF f (rest.filter (· ≠ x))

/-- `list(dict.fromkeys(l))`: deduplicate keeping first occurrences. -/
def dedupFirst (l : List String) : List String :=
  dedupFirstF l.length l

/-- Scans for the first unescaped `)` before a newline; returns the remainder
after it.  Models how the non-greedy `\(.*?\)` finds its closing paren
(`.` does not match a newline). -/
def findCloseParen : List Char → Option (List Char)
  | [] => none
  | c :: rest =>
    if c = ')' then some rest
    else if c = '\n' then none
    else findCloseParen rest

/-- Fuel-based recursion for `stripParens`; `cs.length` fuel always suffices
because every recursive call strictly shrinks the list
(`findCloseParen_length`), so the `0` case is unreachable. -/
def stripParensF (repl : List Char) : Nat → List Char → List Char
  | 0, _ => []
  | _, [] => []
  | f + 1, c :: rest =>
    if c = '(' then
      match findCloseParen rest with
      | some rest' => repl ++ stripParensF repl f rest'
      | none => c :: stripParensF repl f rest
    else c :: stripParensF repl f rest

/-- `re.sub(r"\(.*?\)", repl, text)` where `repl` is a (possibly empty) list
of replacement characters. -/
def stripParens (repl : List Char) (cs : List Char) : List Char :=
  stripParensF repl cs.length cs

/-- `MOVE_STRIP_WORDS` of showdown_manager.py and move_resolver.py. -/
def MOVE_STRIP_WORDS : List String :=
  ["singles", "doubles", "triples", "battle", "mode", "form", "forms"]

/-- `MOVE_STRIP_WORDS` of tournament_teams_extraction.py. -/
def MOVE_STRIP_WORDS_T : List String :=
  ["doubles", "singles", "triples", "battle", "mode"]

/-- Keeps a character for move tokenization iff it is a lowercase ASCII
letter, a digit, or whitespace; every other character is replaced by a
space.  This is the combined effect of the punctuation-class substitution
and the `[^a-z0-9\s]` substitution in the sources: every character the
punctuation class replaces is also outside `[a-z0-9\s]`, so one pass of the
final class is exact. -/
def moveCharFilter (c : Char) : Char :=
  if ('a' ≤ c ∧ c ≤ 'z') ∨ ('0' ≤ c ∧ c ≤ '9') ∨ pyIsSpace c then c else ' '

/-- `normalize_move_label` (showdown_manager.py, line 95), which is also
character-for-character `normalize_move_name` of move_resolver.py on ASCII
input: lowercase, blank out parenthesised segments, replace punctuation by
spaces, split, drop the strip words, concatenate. -/
def normalize_move_label (label : String) : String :=
  let lowered := (lowerStr label).data
  let noParens := stripParens [' '] lowered
  let spaced := noParens.map moveCharFilter
  let tokens := (split_ws spaced).filter fun t => ¬ t ∈ MOVE_STRIP_WORDS
  String.join tokens

/-- `normalize_move_name` (tournament_teams_extraction.py, line 251): same
pipeline but without the parenthesis removal and with the five-word strip
list. -/
def normalize_move_name_t (label : String) : String :=
  let lowered := (lowerStr label).data
  let spaced := lowered.map moveCharFilter
  let tokens := (split_ws spaced).filter fun t => ¬ t ∈ MOVE_STRIP_WORDS_T
  String.join tokens

/-- `DESCRIPTOR_TOKEN_MAP` (identical in showdown_manager.py and
tournament_teams_extraction.py); `none` models a key missing from the dict,
`some ""` a key mapped to the empty string. -/
def descriptor_token_map : String → Option String
  | "shadow" => some "Shadow"
  | "ice" => some "Ice"
  | "therian" => some "Therian"
  | "attack" => some "Attack"
  | "defense" => some "Defense"
  | "speed" => some "Speed"
  | "midnight" => some "Midnight"
  | "midday" => some "Midday"
  | "dusk" => some "Dusk"
  | "dawn" => some "Dawn"
  | "wings" => some "Wings"
  | "mane" => some "Mane"
  | "origin" => some "Origin"
  | "hero" => some "Hero"
  | "aqua" => some "Aqua"
  | "blaze" => some "Blaze"
  | "sky" => some "Sky"
  | "paldean" => some "Paldea"
  | "paldea" => some "Paldea"
  | "galarian" => some "Galar"
  | "galar" => some "Galar"
  | "alolan" => some "Alola"
  | "alola" => some "Alola"
  | "hisuian" => some "Hisui"
  | "hisui" => some "Hisui"
  | "female" => some "F"
  | "male" => some "M"
  | "unremarkable" => some "Unremarkable"
  | "family" => some "Family"
  | "breed" => some ""
  | "style" => some ""
  | "form" => some ""
  | "forme" => some ""
  | "aspect" => some ""
  | "rider" => some ""
  | "of" => some ""
  | "the" => some ""
  | "single" => some "Single"
  | "strike" => some "Strike"
  | "standard" => some ""
  | "incarnate" => some ""
  | _ => none

/-- The token-mapping `while` loop of showdown_manager.normalize_species_label
(lines 137-156): map each descriptor token, skipping empty replacements,
capitalizing unknown tokens, and fusing Dawn/Dusk with a following
Wings/Mane into one hyphenated word (consuming the next raw token). -/
def map_tokens_sm : List String → List String
  | [] => []
  | [t] =>
    match descriptor_token_map t with
    | none => [capFirst t]
    | some r => if r = "" then [] else [r]
  | t :: t2 :: rest2 =>
    match descriptor_token_map t with
    | none => capFirst t :: map_tokens_sm (t2 :: rest2)
    | some r =>
      if r = "" then map_tokens_sm (t2 :: rest2)
      else if r = "Dawn" ∨ r = "Dusk" then
        let nt := (descriptor_token_map t2).getD (capFirst t2)
        if nt = "Wings" ∨ nt = "Mane" then (r ++ "-" ++ nt) :: map_tokens_sm rest2
        else r :: map_tokens_sm (t2 :: rest2)
      else r :: map_tokens_sm (t2 :: rest2)

/-- `"-".join(parts)`. -/
def joinDash : List String → String
  | [] => ""
  | [t] => t
  | t :: rest => t ++ "-" ++ joinDash rest

/-- `" ".join(parts)`. -/
def joinSpace : List String → String
  | [] => ""
  | [t] => t
  | t :: rest => t ++ " " ++ joinSpace rest

/-- Characters before the first `[` (`label.split("[", 1)[0]`). -/
def beforeBracket (cs : List Char) : List Char :=
  cs.takeWhile fun c => c ≠ '['

/-- Characters after the first `[` (`label.split("[", 1)[1]`). -/
def afterBracket (cs : List Char) : List Char :=
  ((cs.dropWhile fun c => c ≠ '[').drop 1)

/-- `descriptor.rstrip("]")`. -/
def rstripBracket (cs : List Char) : List Char :=
  ((cs.reverse.dropWhile fun c => c = ']').reverse)

/-- `normalize_species_label` (showdown_manager.py, lines 107-161), with the
Maushold and Paldean-Tauros special cases. -/
def normalize_species_label (label0 : String) : String :=
  let label := trimWs label0
  if ¬ (label.data.contains '[' ∧ label.data.contains ']') then label
  else
    let base : String := ⟨beforeBracket label.data⟩
    let descriptor : String := trimWs ⟨rstripBracket (afterBracket label.data)⟩
    if descriptor = "" then trimWs base
    else
      let maushold : Option String :=
        if containsSub "maushold" (lowerStr base) then
          if containsSub "four" (lowerStr descriptor) then some "Maushold-Four"
          else if containsSub "three" (lowerStr descriptor) then some "Maushold"
          else if containsSub "family" (lowerStr descriptor) then some "Maushold-Four"
          else none
        else none
      match maushold with
      | some r => r
      | none =>
        let tauros : Option String :=
          if containsSub "tauros" (lowerStr label) ∧ containsSub "paldean" (lowerStr descriptor) then
            if containsSub "aqua" (lowerStr descriptor) then some "Tauros-Paldea-Aqua"
            else if containsSub "blaze" (lowerStr descriptor) then some "Tauros-Paldea-Blaze"
            else if containsSub "combat" (lowerStr descriptor) then some "Tauros-Paldea-Combat"
            else none
          else none
        match tauros with
        | some r => r
        | none =>
          let tokens := split_word_runs (lowerStr descriptor).data
          let mapped := map_tokens_sm tokens
          if mapped = [] then trimWs base
          else trimWs base ++ "-" ++ joinDash mapped

/-- The token-mapping `for` loop of the tournament variant (lines 217-224):
map each token, dropping empty replacements. -/
def map_tokens_te (tokens : List String) : List String :=
  tokens.filterMap fun t =>
    match descriptor_token_map t with
    | none => some (capFirst t)
    | some r => if r = "" then none else some r

/-- The duplicate-collapse pass of the tournament variant (lines 227-238):
fuse Dawn/Dusk with a following Wings/Mane. -/
def combine_pairs : List String → List String
  | [] => []
  | [t] => [t]
  | t :: t2 :: rest2 =>
    if t = "Dawn" ∨ t = "Dusk" then
      if t2 = "Wings" ∨ t2 = "Mane" then (t ++ "-" ++ t2) :: combine_pairs rest2
      else t :: combine_pairs (t2 :: rest2)
    else t :: combine_pairs (t2 :: rest2)

/-- `normalize_species_label` (tournament_teams_extraction.py, lines 205-239):
no species-specific special cases. -/
def normalize_species_label_t (label0 : String) : String :=
  let label := trimWs label0
  if ¬ (label.data.contains '[' ∧ label.data.contains ']') then label
  else
    let base : String := ⟨beforeBracket label.data⟩
    let descriptor : String := trimWs ⟨rstripBracket (afterBracket label.data)⟩
    if descriptor = "" then trimWs base
    else
      let tokens := split_word_runs (lowerStr descriptor).data
      let mapped := map_tokens_te tokens
      if mapped = [] then trimWs base
      else trimWs base ++ "-" ++ joinDash (combine_pairs mapped)

/-! ## Data model

Typed views of the JSON records the loaders produce; optional fields model
keys that may be missing from the underlying dicts. -/

/-- A pokedex record (the fields the core reads). -/
structure SpeciesEntry where
  name : Option String := none
  baseSpecies : Option String := none
  forme : Option String := none
  otherFormes : Option (List String) := none
  formeOrder : Option (List String) := none
  tags : Option (List String) := none
  isNonstandard : Option String := none
deriving DecidableEq, Repr

/-- A move/item/ability record (the fields the alias builder reads). -/
structure MoveEntry where
  name : Option String := none
  aliases : Option (List String) := none
deriving DecidableEq, Repr

/-- A learnsets record: `learnset` maps move ids to sources; only key
membership is consulted, so the move-id key list is kept. -/
structure LearnsetEntry where
  learnset : List String := []
deriving DecidableEq, Repr

/-- A formats-data record (only `isNonstandard` is consulted). -/
structure FormatsMeta where
  isNonstandard : Option String := none
deriving DecidableEq, Repr

/-- A format record from formats.js. -/
structure FormatEntry where
  name : String := ""
  id : Option String := none
  gameType : Option String := none
  banlist : List String := []
deriving DecidableEq, Repr

/-- `ShowdownData` (the identical dataclass of showdown_manager.py and
tournament_teams_extraction.py): the loaded corpus plus its alias maps. -/
structure ShowdownData where
  pokedex : List (String × SpeciesEntry) := []
  moves : List (String × MoveEntry) := []
  learnsets : List (String × LearnsetEntry) := []
  formats_data : List (String × FormatsMeta) := []
  formats : List FormatEntry := []
  species_alias_map : List (String × String) := []
  move_alias_map : List (String × String) := []
  item_alias_map : List (String × String) := []
  ability_alias_map : List (String × String) := []
deriving DecidableEq, Repr

/-- `CATEGORY_TAGS` (identical in both files). -/
def CATEGORY_TAGS : List String :=
  ["Restricted Legendary", "Sub-Legendary", "Mythical", "Paradox", "Ultra Beast"]

/-- `TERA_TYPES` (tournament_teams_extraction.py). -/
def TERA_TYPES : List String :=
  ["Bug", "Dark", "Dragon", "Electric", "Fairy", "Fighting", "Fire", "Flying",
   "Ghost", "Grass", "Ground", "Ice", "Normal", "Poison", "Psychic", "Rock",
   "Steel", "Water", "Stellar"]

/-! ## Species alias index (showdown_manager._build_species_alias_map) -/

/-- One insertion step of the alias loops: `if token and token not in
alias_map: alias_map[token] = sid`. -/
def insert_alias (m : List (String × String)) (tok sid : String) : List (String × String) :=
  if tok ≠ "" ∧ (dfind tok m).isNone then m ++ [(tok, sid)] else m

/-- The candidate surface forms one pokedex record contributes (the `names`
set of `_build_species_alias_map`, lines 230-246; all map to the same id, so
set-iteration order is irrelevant to the resulting map). -/
def entry_names (sid : String) (e : SpeciesEntry) : List String :=
  [e.name.getD "", sid]
    ++ (match e.baseSpecies with
        | some b => if b ≠ "" then [b] else []
        | none => [])
    ++ (match e.baseSpecies, e.forme with
        | some b, some f =>
          if b ≠ "" ∧ f ≠ "" then
            [b ++ "-" ++ f, b ++ " " ++ f, b ++ " [" ++ f ++ "]", b ++ " (" ++ f ++ ")"]
              ++ (if lowerStr f = "shadow" then [b ++ " Shadow Rider"] else [])
              ++ (if lowerStr f = "ice" then [b ++ " Ice Rider"] else [])
          else []
        | _, _ => [])
    ++ (match e.otherFormes with
        | some l => if l ≠ [] then l else e.formeOrder.getD []
        | none => e.formeOrder.getD [])

/-- The nonempty normalized tokens of a record's surface forms. -/
def entry_tokens (sid : String) (e : SpeciesEntry) : List String :=
  ((entry_names sid e).map to_id).filter (· ≠ "")

/-- Registers every surface form of one record, first-writer-wins. -/
def insert_entry (m : List (String × String)) (p : String × SpeciesEntry) :
    List (String × String) :=
  (entry_names p.1 p.2).foldl (fun m n => insert_alias m (to_id n) p.1) m

/-- A record is a base form iff it has no truthy base-species reference or
that reference (verbatim or normalized) is the record's own id
(`_build_species_alias_map`, line 223). -/
def is_base_entry (p : String × SpeciesEntry) : Bool :=
  match p.2.baseSpecies with
  | none => true
  | some b => b = "" ∨ b = p.1 ∨ to_id b = p.1

/-- `_build_species_alias_map` (showdown_manager.py, lines 213-275): base
forms in pokedex order first, then forme variants in pokedex order; every
token is inserted only when not already present. -/
def build_species_alias_map (dex : List (String × SpeciesEntry)) :
    List (String × String) :=
  ((dex.filter is_base_entry) ++ (dex.filter fun p => ¬ is_base_entry p)).foldl
    insert_entry []

/-- The candidate surface forms of one move/item/ability record
(`_build_simple_alias_map`, lines 283-291). -/
def simple_names (eid : String) (e : MoveEntry) : List String :=
  [eid]
    ++ (match e.name with | some n => [n] | none => [])
    ++ ((e.aliases.getD []).filter (· ≠ ""))

/-- `_build_simple_alias_map` (showdown_manager.py, lines 277-296),
parameterized by the per-category normalizer. -/
def build_simple_alias_map (normalizer : String → String)
    (entries : List (String × MoveEntry)) : List (String × String) :=
  entries.foldl
    (fun m p => (simple_names p.1 p.2).foldl
      (fun m n => insert_alias m (normalizer n) p.1) m)
    []

/-! ## Resolvers -/

/-- `ShowdownManager.resolve_species_id` (showdown_manager.py, lines
522-530), parameterized by the species alias map it consults. -/
def resolve_species_id (m : List (String × String)) (raw_label : String) :
    Option String :=
  match dfind (to_id (normalize_species_label raw_label)) m with
  | some v => some v
  | none => dfind (to_id raw_label) m

/-- `ShowdownData.resolve_species_id` (tournament_teams_extraction.py, lines
420-426): same lookup chain but with the tournament label normalizer. -/
def resolve_species_id_t (m : List (String × String)) (label : String) :
    Option String :=
  match dfind (to_id (normalize_species_label_t label)) m with
  | some v => some v
  | none => dfind (to_id label) m

/-! ## difflib similarity (SequenceMatcher / get_close_matches)

`find_longest_match` over full sequences: the longest block, tie-broken by
least start in `a`, then least start in `b` (no junk: all compared tokens
are shorter than the 200-character autojunk threshold). -/

/-- Length of the longest common prefix. -/
def commonRun : List Char → List Char → Nat
  | a :: as', b :: bs' => if a = b then commonRun as' bs' + 1 else 0
  | _, _ => 0

/-- Brute-force `find_longest_match(0, len(a), 0, len(b))`: scan `(i, j)` in
lexicographic order keeping the first strictly-longest block, matching
difflib's tie-breaking. -/
def bestMatch (a b : List Char) : Nat × Nat × Nat :=
  ((List.range a.length).flatMap fun i =>
    (List.range b.length).map fun j => (i, j)).foldl
    (fun best p =>
      let k := commonRun (a.drop p.1) (b.drop p.2)
      if k > best.2.2 then (p.1, p.2, k) else best)
    (0, 0, 0)

/-- Fuel-based total size of the matching blocks (`sum of block sizes` in
`get_matching_blocks`), by recursing left and right of the longest block.
Fuel `a.length + b.length` always suffices: each recursive call strictly
shrinks the combined length (the block has size ≥ 1), so the `0` case is
unreachable. -/
def matchTotalF : Nat → List Char → List Char → Nat
  | 0, _, _ => 0
  | f + 1, a, b =>
    let m := bestMatch a b
    if m.2.2 = 0 then 0
    else
      matchTotalF f (a.take m.1) (b.take m.2.1) + m.2.2
        + matchTotalF f (a.drop (m.1 + m.2.2)) (b.drop (m.2.1 + m.2.2))

/-- Total matched characters between two sequences (`SequenceMatcher` with
`seq1 = a`, `seq2 = b`). -/
def matchTotal (a b : List Char) : Nat :=
  matchTotalF (a.length + b.length) a b

/-- `ratio() >= 0.72` as an exact rational comparison (see header note). -/
def ratioGE72 (a b : List Char) : Bool :=
  100 * (2 * matchTotal a b) ≥ 72 * (a.length + b.length)

/-- `(ratio_x, x) > (ratio_y, y)` — the tuple comparison `heapq.nlargest`
performs on `(s.ratio(), x)` pairs, with the ratios compared exactly
(cross-multiplied; both denominators are positive for nonempty keys). -/
def scorePairGt (w : List Char) (x : String × Nat) (y : String × Nat) : Bool :=
  x.2 * (y.1.data.length + w.length) > y.2 * (x.1.data.length + w.length)
    ∨ (x.2 * (y.1.data.length + w.length) = y.2 * (x.1.data.length + w.length)
        ∧ y.1 < x.1)

/-- One candidate step of `get_close_matches(word, keys, n=1, cutoff=0.72)`:
keep a candidate only if its ratio clears the cutoff (the quick-ratio
pre-filters are upper bounds of `ratio()`, so the conjunction of the three
`>= cutoff` tests is equivalent to the last one), then keep the running
maximum of `(ratio, key)`. -/
def closeStep (w : List Char) (best : Option (String × Nat)) (x : String) :
    Option (String × Nat) :=
  if ratioGE72 x.data w then
    match best with
    | none => some (x, matchTotal x.data w)
    | some y =>
      if scorePairGt w (x, matchTotal x.data w) y then some (x, matchTotal x.data w)
      else some y
  else best

/-- `difflib.get_close_matches(word, keys, n=1, cutoff=0.72)` returning the
single best match if any candidate clears the cutoff. -/
def getCloseMatch1 (word : String) (keys : List String) : Option String :=
  (keys.foldl (closeStep word.data) none).map (·.1)

/-- `ShowdownManager.resolve_move_id` (showdown_manager.py, lines 533-546),
parameterized by the move alias map: exact lookup of the normalized label,
then of the bare `to_id` token, then fuzzy matching at cutoff 0.72. -/
def resolve_move_id (m : List (String × String)) (raw_label : String) :
    Option String :=
  match dfind (normalize_move_label raw_label) m with
  | some v => some v
  | none =>
    match dfind (to_id raw_label) m with
    | some v => some v
    | none =>
      if m = [] then none
      else
        match getCloseMatch1 (normalize_move_label raw_label) (m.map (·.1)) with
        | some k => dfind k m
        | none => none

/-- `ShowdownData.resolve_move_id` (tournament_teams_extraction.py, lines
436-447): the same lookup chain as the showdown_manager resolver but with
the tournament move normalizer (five strip words, no parenthetical
removal). -/
def resolve_move_id_t (m : List (String × String)) (name : String) :
    Option String :=
  match dfind (normalize_move_name_t name) m with
  | some v => some v
  | none =>
    match dfind (to_id name) m with
    | some v => some v
    | none =>
      if m = [] then none
      else
        match getCloseMatch1 (normalize_move_name_t name) (m.map (·.1)) with
        | some k => dfind k m
        | none => none

/-- `_normalize_move_input` (move_resolver.py, lines 174-186): candidate
strings derived from the raw label (verbatim, parenthetical removed, final
word dropped), stripped, deduplicated. -/
def normalize_move_input (name : String) : List String :=
  let cleaned := trimWs name
  let c1 := [cleaned]
  let no_paren := trimWs ⟨stripParens [] cleaned.data⟩
  let c2 := if no_paren ≠ "" ∧ ¬ no_paren ∈ c1 then c1 ++ [no_paren] else c1
  let tokens := split_ws (cleaned.data.map fun c => if c = '-' then ' ' else c)
  let c3 :=
    if tokens.length > 1 then
      let without_last := trimWs (joinSpace tokens.dropLast)
      if without_last ≠ "" then c2 ++ [without_last] else c2
    else c2
  dedupFirst ((c3.map trimWs).filter (· ≠ ""))

/-- `resolve_move_id` (move_resolver.py, lines 189-223), parameterized by
the alias map: exact lookup of every candidate token, then fuzzy matching on
the longest token.  Python iterates the token *set*; the deduplicated list
in candidate order is used (all uses below are insensitive to this order). -/
def mr_resolve_move_id (alias_map : List (String × String)) (name : String) :
    Option String :=
  let tokens0 := dedupFirst ((normalize_move_input name).map normalize_move_label)
  let tokens :=
    if tokens0 = [] then
      if normalize_move_label name ≠ "" then [normalize_move_label name] else []
    else tokens0
  match tokens.findSome? (fun t => dfind t alias_map) with
  | some v => some v
  | none =>
    let seed :=
      match tokens with
      | [] => normalize_move_label name
      | t :: rest => rest.foldl (fun b x => if x.length > b.length then x else b) t
    if seed = "" then none
    else
      match getCloseMatch1 seed (alias_map.map (·.1)) with
      | some k => dfind k alias_map
      | none => none

set_option maxRecDepth 10000

/-! ## Legality & eligibility validators -/

/-- `learnsets.get(sid, {}).get("learnset", {})` as a move-id list. -/
def learnset_of (d : ShowdownData) (sid : String) : List String :=
  match dfind sid d.learnsets with
  | some e => e.learnset
  | none => []

/-- `pokedex.get(sid, {}).get("baseSpecies")`. -/
def base_ref (d : ShowdownData) (sid : String) : Option String :=
  match dfind sid d.pokedex with
  | some e => e.baseSpecies
  | none => none

/-- `validate_move_learnset` (tournament_teams_extraction.py, lines 463-473),
identical to `ShowdownManager.can_species_learn_move` (showdown_manager.py,
lines 562-575): direct learnset membership, else retry against the base
species resolved through the species alias index.  Both `if base_species:`
and `if base_id:` are Python truthiness tests, so a reference or a
resolution that is the empty string falls through to `False`. -/
def validate_move_learnset (d : ShowdownData) (species_id move_id : String) : Bool :=
  if (learnset_of d species_id).contains move_id then true
  else
    match base_ref d species_id with
    | some b =>
      if b ≠ "" then
        match dfind (to_id b) d.species_alias_map with
        | some bid =>
          if bid ≠ "" then (learnset_of d bid).contains move_id else false
        | none => false
      else false
    | none => false

/-- The per-format body of the `determine_valid_formats` loop (lines
487-506): `none` means the format is skipped, `some fid` that its id is
collected. -/
def format_gate (species_id : String) (tags : List String) (restrict_to_vgc : Bool)
    (fmt : FormatEntry) : Option String :=
  if restrict_to_vgc ∧ ¬ containsSub "vgc" (lowerStr fmt.name) then none
  else
    let fid := match fmt.id with
      | some i => if i ≠ "" then i else to_id fmt.name
      | none => to_id fmt.name
    if fid = "" then none
    else if (match fmt.gameType with
             | some g => g != "" && g != "doubles"
             | none => false) then none
    else if (fmt.banlist.map to_id).contains species_id then none
    else if fmt.banlist.any (fun t => CATEGORY_TAGS.contains t && tags.contains t) then none
    else some fid

/-- Python `sorted` on strings: stable ascending lexicographic order
(`List.mergeSort` is stable and `String` order is by code points, matching
CPython). -/
def sortedStr (l : List String) : List String :=
  l.mergeSort fun a b => a ≤ b

/-- `set(entry.get("tags") or [])` for the species' pokedex record (list
membership stands in for set membership). -/
def species_tags (d : ShowdownData) (species_id : String) : List String :=
  ((dfind species_id d.pokedex).getD {}).tags.getD []

/-- `determine_valid_formats` (tournament_teams_extraction.py, lines 476-507),
identical to `ShowdownManager.determine_valid_formats` (showdown_manager.py,
lines 577-610). -/
def determine_valid_formats (d : ShowdownData) (species_id : String)
    (restrict_to_vgc : Bool := true) : List String :=
  let entry := (dfind species_id d.pokedex).getD {}
  let meta := (dfind species_id d.formats_data).getD {}
  if (match entry.isNonstandard with
      | some s => s == "Past" || s == "Future" || s == "Unobtainable"
      | none => false) then []
  else if (match meta.isNonstandard with
           | some s => s == "Past" || s == "Future" || s == "Unobtainable"
           | none => false) then []
  else
    sortedStr (d.formats.filterMap
      (format_gate species_id (species_tags d species_id) restrict_to_vgc))

/-! ## Extraction pipeline (tournament_teams_extraction.py) -/

/-- A raw Pokémon slot of a division payload. -/
structure Slot where
  name : Option String := none
  teratype : Option String := none
  ability : Option String := none
  item : Option String := none
  badges : List String := []
deriving DecidableEq, Repr

/-- A raw player record of a division payload (`record` is an opaque
payload, kept as a string). -/
structure RawPlayer where
  name : Option String := none
  placing : Option Int := none
  record : Option String := none
  decklist : Option (List Slot) := none
deriving DecidableEq, Repr

/-- `MoveExtraction`. -/
structure MoveExtraction where
  raw_move : String
  move_id : Option String
  move_name : String
  is_legal : Bool
deriving DecidableEq, Repr

/-- `PokemonExtraction`. -/
structure PokemonExtraction where
  raw_species : String
  species : String
  showdown_id : String
  tera_type : Option String
  ability : Option String
  item : Option String
  moves : List MoveExtraction
  valid_formats : List String
  issues : List String
deriving DecidableEq, Repr

/-- `PlayerExtraction`. -/
structure PlayerExtraction where
  player_name : String := ""
  country : Option String := none
  placing : Option Int := none
  record : String := ""
  showdown_team : String := ""
  pokemon : List PokemonExtraction := []
  is_valid : Bool := true
  issues : List String := []
deriving DecidableEq, Repr

/-- `split_player_name` (lines 242-248): the regex
`^(.+?)\s*\[([A-Z]{2})\]$` on the stripped name — a match exists iff the
stripped name ends in `[XY]` with two ASCII capitals and the remaining
prefix is a nonempty, newline-free name part followed by optional
whitespace (`.` does not match a newline, `\s*` does): when the prefix has
a non-whitespace core that core must contain no newline, and when it is all
whitespace its first character must not be a newline.  The returned name is
the prefix stripped. -/
def split_player_name (raw_name : String) : String × Option String :=
  let s := (trimWs raw_name).data
  let n := s.length
  if h : 5 ≤ n then
    let cOpen := s.get ⟨n - 4, by omega⟩
    let c1 := s.get ⟨n - 3, by omega⟩
    let c2 := s.get ⟨n - 2, by omega⟩
    let cClose := s.get ⟨n - 1, by omega⟩
    let pre := s.take (n - 4)
    let core := (pre.reverse.dropWhile pyIsSpace).reverse
    if cOpen = '[' ∧ cClose = ']' ∧ ('A' ≤ c1 ∧ c1 ≤ 'Z') ∧ ('A' ≤ c2 ∧ c2 ≤ 'Z')
        ∧ (core.isEmpty = true → pre.head? ≠ some '\n')
        ∧ (core.isEmpty = false → ¬ core.contains '\n') then
      (trimWs ⟨pre⟩, some ⟨[c1, c2]⟩)
    else (⟨s⟩, none)
  else (⟨s⟩, none)

/-- `slot.get("name") or "Unknown"` (line 514). -/
def slot_label (slot : Slot) : String :=
  match slot.name with
  | some n => if n ≠ "" then n else "Unknown"
  | none => "Unknown"

/-- `showdown_data.resolve_species_id(raw_species_label)` (line 521). -/
def slot_species_id (d : ShowdownData) (slot : Slot) : Option String :=
  resolve_species_id_t d.species_alias_map (slot_label slot)

/-- The display label of a slot (lines 522-525): the pokedex name of the
truthily resolved species, else the raw label (`if species_id:` is a Python
truthiness test, so an empty-string resolution counts as unresolved). -/
def species_display (d : ShowdownData) (slot : Slot) : String :=
  match slot_species_id d slot with
  | some sid =>
    if sid ≠ "" then
      match dfind sid d.pokedex with
      | some e => e.name.getD (slot_label slot)
      | none => slot_label slot
    else slot_label slot
  | none => slot_label slot

/-- The tera-type issue of a slot (lines 527-528). -/
def tera_issues (slot : Slot) : List String :=
  match slot.teratype with
  | some t =>
    if t ≠ "" ∧ ¬ TERA_TYPES.contains t then ["Unknown Tera Type '" ++ t ++ "'"]
    else []
  | none => []

/-- The ability issue of a slot (lines 529-530); `not resolve_ability_id(a)`
is a truthiness test, so a resolution to the empty string also counts as
unresolved. -/
def ability_issues (d : ShowdownData) (slot : Slot) : List String :=
  match slot.ability with
  | some a =>
    if a ≠ "" ∧ ¬ opt_truthy (dfind (to_id a) d.ability_alias_map) then
      ["Ability '" ++ a ++ "' not found in Showdown data"]
    else []
  | none => []

/-- The item issue of a slot (lines 531-532), truthiness as for abilities. -/
def item_issues (d : ShowdownData) (slot : Slot) : List String :=
  match slot.item with
  | some i =>
    if i ≠ "" ∧ ¬ opt_truthy (dfind (to_id i) d.item_alias_map) then
      ["Item '" ++ i ++ "' not found in Showdown data"]
    else []
  | none => []

/-- The per-move body of the `convert_decklist_entry` loop (lines 534-561):
returns the `MoveExtraction` and the issues the move contributes.  Moves are
resolved with the tournament resolver (line 535 calls
`showdown_data.resolve_move_id`, lines 436-447); `if move_id:` and
`if move_id and species_id:` are truthiness tests, so an empty-string
resolution behaves as unresolved.  A `MoveEntry` listed in `d.moves` models
a nonempty payload record, so `if move_meta:` (dict truthiness, line 539) is
membership in the typed table. -/
def convert_move (d : ShowdownData) (species_id : Option String)
    (species_label : String) (move : String) : MoveExtraction × List String :=
  let resolved := resolve_move_id_t d.move_alias_map move
  let step1 : Option String × String × List String :=
    match resolved with
    | some mid =>
      if mid ≠ "" then
        match dfind mid d.moves with
        | some meta => (some mid, meta.name.getD move, [])
        | none => (none, move, ["Move '" ++ move ++ "' not found in Showdown data"])
      else (some mid, move, ["Move '" ++ move ++ "' not found in Showdown data"])
    | none => (none, move, ["Move '" ++ move ++ "' not found in Showdown data"])
  let move_id := step1.1
  let move_name := step1.2.1
  let legal : Bool × List String :=
    match move_id, species_id with
    | some mid, some sid =>
      if mid ≠ "" ∧ sid ≠ "" then
        if validate_move_learnset d sid mid then (true, [])
        else (false, [species_label ++ " cannot learn " ++ move_name])
      else if mid ≠ "" then
        (false, ["Unable to validate move '" ++ move ++ "' without species data"])
      else (false, [])
    | some mid, none =>
      if mid ≠ "" then
        (false, ["Unable to validate move '" ++ move ++ "' without species data"])
      else (false, [])
    | none, _ => (false, [])
  ({ raw_move := move, move_id := move_id, move_name := move_name,
     is_legal := legal.1 },
   step1.2.2 ++ legal.2)

/-- The format computation of a slot (lines 562-564), under `if species_id:`
truthiness. -/
def slot_valid_formats (d : ShowdownData) (slot : Slot) : List String :=
  match slot_species_id d slot with
  | some sid => if sid ≠ "" then determine_valid_formats d sid else []
  | none => []

/-- The end-of-conversion unresolved-species issue (line 566), under
`if species_id:` truthiness. -/
def species_issues (d : ShowdownData) (slot : Slot) : List String :=
  if opt_truthy (slot_species_id d slot) then []
  else ["Unable to resolve species '" ++ species_display d slot ++ "'"]

/-- `convert_decklist_entry` (tournament_teams_extraction.py, lines 510-577),
assembled from the named per-check pieces above in the source's order. -/
def convert_decklist_entry (d : ShowdownData) (slot : Slot) : PokemonExtraction :=
  let moves := slot.badges.filter (· ≠ "")
  let species_id := slot_species_id d slot
  let species_label := species_display d slot
  let showdown_id :=
    match species_id with
    | some sid => if sid ≠ "" then sid else to_id species_label
    | none => to_id species_label
  let moveResults := moves.map (convert_move d species_id species_label)
  { raw_species := slot_label slot,
    species := species_label,
    showdown_id := showdown_id,
    tera_type := slot.teratype,
    ability := slot.ability,
    item := slot.item,
    moves := moveResults.map (·.1),
    valid_formats := slot_valid_formats d slot,
    issues := tera_issues slot ++ ability_issues d slot ++ item_issues d slot
      ++ moveResults.flatMap (·.2) ++ species_issues d slot }

/-- `build_showdown_team_string` (lines 580-596). -/
def build_showdown_team_string (pokemon : List PokemonExtraction) : String :=
  let blocks := pokemon.map fun slot =>
    let header :=
      match slot.item with
      | some i => if i ≠ "" then slot.species ++ " @ " ++ i else slot.species
      | none => slot.species
    let abilityLines :=
      match slot.ability with
      | some a => if a ≠ "" then ["Ability: " ++ a] else []
      | none => []
    let teraLines :=
      match slot.tera_type with
      | some t => if t ≠ "" then ["Tera Type: " ++ t] else []
      | none => []
    let lines := [header] ++ abilityLines ++ teraLines ++ ["Level: 50"]
      ++ slot.moves.map (fun m => "- " ++ m.move_name)
    String.intercalate "\n" lines
  String.intercalate "\n\n" blocks

/-- `transform_player` (tournament_teams_extraction.py, lines 599-620). -/
def transform_player (d : ShowdownData) (player : RawPlayer) : PlayerExtraction :=
  let nameCountry := split_player_name (player.name.getD "Unknown")
  let decklist := player.decklist.getD []
  let pokemon := decklist.map (convert_decklist_entry d)
  let issues := pokemon.flatMap (·.issues)
  { player_name := nameCountry.1,
    country := nameCountry.2,
    placing := player.placing,
    record := player.record.getD "",
    showdown_team := build_showdown_team_string pokemon,
    pokemon := pokemon,
    is_valid := issues.isEmpty,
    issues := issues }

/-- The sort key of `process_tournament` (line 648):
`p.placing if p.placing is not None else 9999`. -/
def placing_key (p : PlayerExtraction) : Int :=
  p.placing.getD 9999

/-- The player ordering step of `process_tournament` (line 648): a stable
ascending sort by `placing_key` (Python `list.sort` is stable;
`List.mergeSort` is the corresponding stable sort). -/
def sort_players (l : List PlayerExtraction) : List PlayerExtraction :=
  l.mergeSort fun a b => placing_key a ≤ placing_key b

/-! ## Caching fetcher (pokedata_cache_manager._download_file, lines 32-74)

The filesystem is the pair (cached file, ETag sidecar); the network is an
oracle: `head = none` models a `requests.RequestException` from the HEAD
probe (transport error or `raise_for_status`), `head = some e` a successful
probe whose `ETag` header is `e`; `get = none` models a transport error
from the GET, `get = some r` a completed response. -/

/-- Local cache state: the data file and its `.etag` sidecar. -/
structure FetchState where
  localFile : Option String := none
  etagFile : Option String := none
deriving DecidableEq, Repr

/-- A completed GET response. -/
structure GetResponse where
  status : Nat
  etag : Option String := none
  body : String := ""
deriving DecidableEq, Repr

/-- Result of a `_download_file` run: final cache state, whether the call
returned normally (`ok = false` models a propagated exception), and — when a
GET was issued — the `If-None-Match` value it carried (`some none` = an
unconditional GET). -/
structure FetchResult where
  state : FetchState
  ok : Bool
  getCond : Option (Option String)
deriving DecidableEq, Repr

/-- The GET phase of `_download_file` (lines 58-74), after the HEAD phase
has decided not to serve from cache: `cond` is the `If-None-Match` header
value, `remoteEtag` the ETag a successful non-matching HEAD left behind. -/
def process_get (st : FetchState) (cond : Option String)
    (remoteEtag : Option String) (get : Option GetResponse) : FetchResult :=
  match get with
  | none => { state := st, ok := false, getCond := some cond }
  | some resp =>
    if resp.status = 304 ∧ st.localFile.isSome then
      { state := st, ok := true, getCond := some cond }
    else if 400 ≤ resp.status ∧ resp.status < 600 then
      { state := st, ok := false, getCond := some cond }
    else
      let newEtag := if opt_truthy resp.etag then resp.etag else remoteEtag
      { state :=
          { localFile := some resp.body,
            etagFile := if opt_truthy newEtag then newEtag.map trimWs
                        else st.etagFile },
        ok := true,
        getCond := some cond }

/-- `_download_file` (pokedata_cache_manager.py, lines 32-74); the
showdown_data_manager copy (lines 97-140) is identical, and the
showdown_manager copy (lines 361-400) is this function at `force = false`. -/
def download_file (st : FetchState) (force : Bool)
    (head : Option (Option String)) (get : Option GetResponse) : FetchResult :=
  let localEtag := st.etagFile.map trimWs
  let headHit : Bool :=
    if ¬ force ∧ st.localFile.isSome then
      match head with
      | some remoteEtag => opt_truthy remoteEtag ∧ localEtag = remoteEtag
      | none => false
    else false
  if headHit then { state := st, ok := true, getCond := none }
  else
    let remoteEtag : Option String :=
      if ¬ force ∧ st.localFile.isSome then head.getD none else none
    let cond : Option String :=
      if ¬ force ∧ opt_truthy localEtag then localEtag else none
    match get with
    | none => { state := st, ok := false, getCond := some cond }
    | some resp =>
      if resp.status = 304 ∧ st.localFile.isSome then
        { state := st, ok := true, getCond := some cond }
      else if 400 ≤ resp.status ∧ resp.status < 600 then
        { state := st, ok := false, getCond := some cond }
      else
        let newEtag := if opt_truthy resp.etag then resp.etag else remoteEtag
        { state :=
            { localFile := some resp.body,
              etagFile := if opt_truthy newEtag then newEtag.map trimWs
                          else st.etagFile },
          ok := true,
          getCond := some cond }

/-- The HEAD phase's cache-hit condition of `_download_file` (lines 45-53):
probe attempted, succeeded, returned a truthy ETag equal to the stored one. -/
def head_cache_hit (st : FetchState) (force : Bool)
    (head : Option (Option String)) : Bool :=
  if ¬ force ∧ st.localFile.isSome then
    match head with
    | some remoteEtag => opt_truthy remoteEtag ∧ (st.etagFile.map trimWs) = remoteEtag
    | none => false
  else false

/-- The `If-None-Match` value the GET of `_download_file` carries (lines
58-60): the stored ETag when `force` is false and one is stored. -/
def fetch_cond (st : FetchState) (force : Bool) : Option String :=
  if ¬ force ∧ opt_truthy (st.etagFile.map trimWs) then st.etagFile.map trimWs
  else none

/-- `download_file` decomposed: serve from cache on a HEAD hit, otherwise run
the GET phase with the conditional header and the HEAD's leftover ETag. -/
theorem download_file_eq (st : FetchState) (force : Bool)
    (head : Option (Option String)) (get : Option GetResponse) :
    download_file st force head get =
      if head_cache_hit st force head then { state := st, ok := true, getCond := none }
      else process_get st (fetch_cond st force)
        (if ¬ force ∧ st.localFile.isSome then head.getD none else none) get := rfl

/-- Every run of the GET phase reports the GET it issued. -/
theorem process_get_cond (st : FetchState) (cond : Option String)
    (remoteEtag : Option String) (get : Option GetResponse) :
    (process_get st cond remoteEtag get).getCond = some cond := by
  cases get with
  | none => rfl
  | some resp =>
    simp only [process_get]
    split
    · rfl
    · split <;> rfl

/-- Every recursive call of `stripParensF` strictly shrinks the list, so
`cs.length` fuel suffices. -/
theorem findCloseParen_length :
    ∀ cs r, findCloseParen cs = some r → r.length < cs.length := by
  intro cs
  induction cs with
  | nil => intro r h; simp [findCloseParen] at h
  | cons c rest ih =>
    intro r h
    simp only [findCloseParen] at h
    split at h
    · cases h; simp
    · split at h
      · cases h
      · exact Nat.lt_trans (ih r h) (Nat.lt_succ_self _)

/-!  ### Claims -/

/-- C1.  For every loaded dataset whose species alias index registers the
canonical ids `slowbrogalar`, `taurospaldeaaqua` and `basculegionf`, species
resolution maps `Slowbro [Galarian Form]`, `Tauros [Paldean Form - Aqua
Breed]` and `Basculegion [Female]` to those ids. -/
theorem claim_C1 (m : List (String × String))
    (h1 : dfind "slowbrogalar" m = some "slowbrogalar")
    (h2 : dfind "taurospaldeaaqua" m = some "taurospaldeaaqua")
    (h3 : dfind "basculegionf" m = some "basculegionf") :
    resolve_species_id m "Slowbro [Galarian Form]" = some "slowbrogalar"
    ∧ resolve_species_id m "Tauros [Paldean Form - Aqua Breed]" = some "taurospaldeaaqua"
    ∧ resolve_species_id m "Basculegion [Female]" = some "basculegionf" := by
  refine ⟨?_, ?_, ?_⟩
  · have e : to_id (normalize_species_label "Slowbro [Galarian Form]")
        = "slowbrogalar" := by decide
    simp only [resolve_species_id, e, h1]
  · have e : to_id (normalize_species_label "Tauros [Paldean Form - Aqua Breed]")
        = "taurospaldeaaqua" := by decide
    simp only [resolve_species_id, e, h2]
  · have e : to_id (normalize_species_label "Basculegion [Female]")
        = "basculegionf" := by decide
    simp only [resolve_species_id, e, h3]

/-- A concrete alias map registering the three canonical ids of C1. -/
def c1_map : List (String × String) :=
  [("slowbrogalar", "slowbrogalar"), ("taurospaldeaaqua", "taurospaldeaaqua"),
   ("basculegionf", "basculegionf")]

/-- Witness for C1 at a concrete alias map. -/
theorem claim_C1_witness :
    resolve_species_id c1_map "Slowbro [Galarian Form]" = some "slowbrogalar"
    ∧ resolve_species_id c1_map "Tauros [Paldean Form - Aqua Breed]" = some "taurospaldeaaqua"
    ∧ resolve_species_id c1_map "Basculegion [Female]" = some "basculegionf" :=
  claim_C1 c1_map (by decide) (by decide) (by decide)

/-- C6 counterexample.  A roster with an unplaced player and a player placed
10000: the sort keys an absent placing as 9999, so the unplaced player comes
*before* the placed one, contradicting "every player whose placing is absent
appears after every player that has a placing". -/
def c6_players : List PlayerExtraction :=
  [{ placing := some 10000 }, { placing := none }]

/-- C6 counterexample: after sorting, the unplaced player is first and the
player placed 10000 second. -/
theorem claim_C6_counterexample :
    (sort_players c6_players).map PlayerExtraction.placing = [none, some 10000] := by
  simp +decide [sort_players, List.mergeSort, List.merge, placing_key, c6_players]

/-- C6 (amended).  The returned list is a permutation of the input, sorted
ascending by the key "placing, with absent placings keyed 9999"; hence every
unplaced entry comes after every entry placed strictly below 9999, but only
after those. -/
theorem claim_C6 (l : List PlayerExtraction) :
    List.Sorted (fun a b => placing_key a ≤ placing_key b) (sort_players l)
    ∧ (sort_players l).Perm l
    ∧ ∀ (i j : Nat) (hi : i < (sort_players l).length)
        (hj : j < (sort_players l).length), i < j →
        ((sort_players l).get ⟨i, hi⟩).placing = none →
        ∀ v : Int, ((sort_players l).get ⟨j, hj⟩).placing = some v → 9999 ≤ v := by
  have hsorted : List.Sorted (fun a b => placing_key a ≤ placing_key b) (sort_players l) := by
    have h := @List.sorted_mergeSort PlayerExtraction
      (fun a b => decide (placing_key a ≤ placing_key b))
      (fun a b c hab hbc =>
        decide_eq_true (le_trans (of_decide_eq_true hab) (of_decide_eq_true hbc)))
      (fun a b => by
        rcases le_total (placing_key a) (placing_key b) with h | h <;> simp [h]) l
    exact h.imp fun hab => of_decide_eq_true hab
  refine ⟨hsorted, List.mergeSort_perm l _, ?_⟩
  intro i j hi hj hij hnone v hsome
  have h := List.pairwise_iff_get.mp hsorted ⟨i, hi⟩ ⟨j, hj⟩ (Fin.mk_lt_mk.mpr hij)
  simp only [placing_key, hnone, hsome, Option.getD_none, Option.getD_some] at h
  exact h

/-- Witness for C6 at the concrete roster `c6_players`. -/
theorem claim_C6_witness :
    (9999 : Int) ≤ 10000 ∧ (sort_players c6_players).Perm c6_players := by
  have hs : sort_players c6_players
      = [{ placing := none }, { placing := some 10000 }] := by
    simp +decide [sort_players, List.mergeSort, List.merge, placing_key, c6_players]
  refine ⟨(claim_C6 c6_players).2.2 0 1 ?_ ?_ (by decide) ?_ 10000 ?_,
    (claim_C6 c6_players).2.1⟩
  · rw [hs]; decide
  · rw [hs]; decide
  · simp [hs]
  · simp [hs]

/-- C7 counterexample input: a cached file with a stored ETag, a HEAD that
returned a different ETag, and a GET answered with status 303. -/
def c7_state : FetchState := { localFile := some "old-body", etagFile := some "etag-1" }

/-- C7 counterexample: a 303 response — non-2xx and not 304 — does not
propagate as a failure: `raise_for_status` only raises on 4xx/5xx, so the
fetch succeeds and overwrites the local file and its sidecar. -/
theorem claim_C7_counterexample :
    (download_file c7_state false (some (some "etag-2"))
        (some { status := 303, etag := some "etag-3", body := "see-other" })).ok = true
    ∧ (download_file c7_state false (some (some "etag-2"))
        (some { status := 303, etag := some "etag-3", body := "see-other" })).state
      ≠ c7_state := by decide

/-- C7 (amended).  Whenever the HEAD phase did not serve from cache and the
GET fails with a transport error or a 4xx/5xx status (the statuses
`raise_for_status` raises on), the failure propagates and the local file and
its ETag sidecar are left exactly as they were. -/
theorem claim_C7 (st : FetchState) (force : Bool) (head : Option (Option String))
    (get : Option GetResponse)
    (hmiss : head_cache_hit st force head = false)
    (hfail : get = none ∨ ∃ r, get = some r ∧ 400 ≤ r.status ∧ r.status < 600) :
    (download_file st force head get).ok = false
    ∧ (download_file st force head get).state = st := by
  rw [download_file_eq, hmiss]
  simp only [Bool.false_eq_true, if_false]
  rcases hfail with rfl | ⟨r, rfl, h4, h6⟩
  · exact ⟨rfl, rfl⟩
  · simp only [process_get]
    rw [if_neg fun h => by omega, if_pos ⟨h4, h6⟩]
    exact ⟨rfl, rfl⟩

/-- Witness for C7: a 500 response at a concrete cache state. -/
theorem claim_C7_witness :
    (download_file c7_state false (some (some "etag-2"))
        (some { status := 500, etag := none, body := "oops" })).ok = false
    ∧ (download_file c7_state false (some (some "etag-2"))
        (some { status := 500, etag := none, body := "oops" })).state = c7_state :=
  claim_C7 c7_state false (some (some "etag-2"))
    (some { status := 500, etag := none, body := "oops" })
    (by decide) (Or.inr ⟨_, rfl, by decide, by decide⟩)

/-- C8 counterexample input: a cached file whose ETag sidecar stores
`etag-A`, with the HEAD probe failing. -/
def c8_state : FetchState := { localFile := some "cached", etagFile := some "etag-A" }

/-- C8 counterexample: after a failed HEAD probe the fallback GET still
carries `If-None-Match: etag-A` — it is not the unconditional GET the claim
describes. -/
theorem claim_C8_counterexample :
    (download_file c8_state false none
        (some { status := 200, etag := some "etag-B", body := "fresh" })).getCond
      = some (some "etag-A") := by decide

/-- C8 (amended).  With `force` false and a local copy present, a HEAD probe
that raises is non-fatal: the fetch proceeds to issue exactly the GET of the
probe-free path — conditional on the stored ETag when one exists,
unconditional otherwise — and completes according to the GET response alone. -/
theorem claim_C8 (st : FetchState) (get : Option GetResponse)
    (_hlocal : st.localFile.isSome = true) :
    (download_file st false none get).getCond = some (fetch_cond st false)
    ∧ download_file st false none get = process_get st (fetch_cond st false) none get := by
  have hmiss : head_cache_hit st false none = false := by
    simp [head_cache_hit]
  have heq : download_file st false none get
      = process_get st (fetch_cond st false) none get := by
    rw [download_file_eq, hmiss]
    simp
  exact ⟨heq ▸ process_get_cond st (fetch_cond st false) none get, heq⟩

/-- Witness for C8: failed probe over `c8_state`, GET answered 200. -/
theorem claim_C8_witness :
    (download_file c8_state false none
        (some { status := 200, etag := some "etag-B", body := "fresh" })).getCond
      = some (fetch_cond c8_state false)
    ∧ download_file c8_state false none
        (some { status := 200, etag := some "etag-B", body := "fresh" })
      = process_get c8_state (fetch_cond c8_state false) none
          (some { status := 200, etag := some "etag-B", body := "fresh" }) :=
  claim_C8 c8_state (some { status := 200, etag := some "etag-B", body := "fresh" })
    (by decide)

/-- C3.  `canLearn(s, m)` is true iff `m` is in `s`'s learnset, or `m` is
not and `s`'s record declares a (truthy) base-species reference that
resolves through the species alias index to a (truthy) species id whose
learnset contains `m`; in every other case — including a reference or a
resolution that is the falsy empty string — it is false. -/
theorem claim_C3 (d : ShowdownData) (s m : String) :
    validate_move_learnset d s m = true ↔
      m ∈ learnset_of d s
      ∨ (m ∉ learnset_of d s ∧ ∃ b bid, base_ref d s = some b ∧ b ≠ ""
          ∧ dfind (to_id b) d.species_alias_map = some bid ∧ bid ≠ ""
          ∧ m ∈ learnset_of d bid) := by
  simp only [validate_move_learnset]
  by_cases hm : m ∈ learnset_of d s
  · rw [if_pos (List.elem_iff.mpr hm)]
    exact iff_of_true rfl (Or.inl hm)
  · rw [if_neg fun h => hm (List.elem_iff.mp h)]
    constructor
    · intro h
      refine Or.inr ⟨hm, ?_⟩
      rcases hbase : base_ref d s with _ | b <;> rw [hbase] at h
      · cases h
      · dsimp only at h
        by_cases hb : b = ""
        · subst hb; simp at h
        · rw [if_pos hb] at h
          rcases hfind : dfind (to_id b) d.species_alias_map with _ | bid <;>
            rw [hfind] at h
          · cases h
          · dsimp only at h
            by_cases hbid : bid = ""
            · subst hbid; simp at h
            · rw [if_pos hbid] at h
              exact ⟨b, bid, rfl, hb, hfind, hbid, List.elem_iff.mp h⟩
    · rintro (hmem | ⟨-, b, bid, hbase, hb, hfind, hbid, hmem⟩)
      · exact absurd hmem hm
      · rw [hbase]
        dsimp only
        rw [if_pos hb, hfind]
        dsimp only
        rw [if_pos hbid]
        exact List.elem_iff.mpr hmem

/-- Membership in a named chunk of a slot's issue list carries over to the
assembled issue list of the converted entry. -/
theorem mem_convert_issues (d : ShowdownData) (slot : Slot) (str : String)
    (h : str ∈ tera_issues slot ∨ str ∈ ability_issues d slot
      ∨ str ∈ item_issues d slot
      ∨ str ∈ ((slot.badges.filter (· ≠ "")).map
          (convert_move d (slot_species_id d slot) (species_display d slot))).flatMap (·.2)
      ∨ str ∈ species_issues d slot) :
    str ∈ (convert_decklist_entry d slot).issues := by
  show str ∈ tera_issues slot ++ ability_issues d slot ++ item_issues d slot
    ++ ((slot.badges.filter (· ≠ "")).map
        (convert_move d (slot_species_id d slot) (species_display d slot))).flatMap (·.2)
    ++ species_issues d slot
  simp only [List.mem_append]
  tauto

/-- A move whose conversion contributes an issue contributes it to the
entry's issue list. -/
theorem mem_convert_issues_of_move (d : ShowdownData) (slot : Slot)
    (mv str : String) (hmv : mv ∈ slot.badges.filter (· ≠ ""))
    (h : str ∈ (convert_move d (slot_species_id d slot) (species_display d slot) mv).2) :
    str ∈ (convert_decklist_entry d slot).issues := by
  refine mem_convert_issues d slot str (Or.inr (Or.inr (Or.inr (Or.inl ?_))))
  exact List.mem_flatMap.mpr
    ⟨convert_move d (slot_species_id d slot) (species_display d slot) mv,
     List.mem_map.mpr ⟨mv, hmv, rfl⟩, h⟩

/-- C5.  Conversion is total: one `PokemonExtraction` per roster slot, the
player-level issue list is exactly the concatenation of the per-slot issue
lists, the validity flag is true iff every slot contributed no issue, and
every unresolved or illegal element — species, tera-type, ability, item,
move, or learnset violation — appends its issue string instead of
aborting. -/
theorem claim_C5 (d : ShowdownData) (p : RawPlayer) :
    (transform_player d p).pokemon.length = (p.decklist.getD []).length
    ∧ (transform_player d p).issues
        = (transform_player d p).pokemon.flatMap PokemonExtraction.issues
    ∧ ((transform_player d p).is_valid = true ↔
        ∀ pe ∈ (transform_player d p).pokemon, pe.issues = [])
    ∧ ∀ slot : Slot,
        (¬ opt_truthy (slot_species_id d slot) →
          ("Unable to resolve species '" ++ species_display d slot ++ "'")
            ∈ (convert_decklist_entry d slot).issues)
        ∧ (∀ t, slot.teratype = some t → t ≠ "" → t ∉ TERA_TYPES →
            ("Unknown Tera Type '" ++ t ++ "'")
              ∈ (convert_decklist_entry d slot).issues)
        ∧ (∀ a, slot.ability = some a → a ≠ "" →
            ¬ opt_truthy (dfind (to_id a) d.ability_alias_map) →
            ("Ability '" ++ a ++ "' not found in Showdown data")
              ∈ (convert_decklist_entry d slot).issues)
        ∧ (∀ i, slot.item = some i → i ≠ "" →
            ¬ opt_truthy (dfind (to_id i) d.item_alias_map) →
            ("Item '" ++ i ++ "' not found in Showdown data")
              ∈ (convert_decklist_entry d slot).issues)
        ∧ (∀ mv ∈ slot.badges.filter (· ≠ ""),
            ¬ opt_truthy (resolve_move_id_t d.move_alias_map mv) →
            ("Move '" ++ mv ++ "' not found in Showdown data")
              ∈ (convert_decklist_entry d slot).issues)
        ∧ (∀ mv ∈ slot.badges.filter (· ≠ ""), ∀ mid meta sid,
            resolve_move_id_t d.move_alias_map mv = some mid → mid ≠ "" →
            dfind mid d.moves = some meta →
            slot_species_id d slot = some sid → sid ≠ "" →
            validate_move_learnset d sid mid = false →
            (species_display d slot ++ " cannot learn " ++ meta.name.getD mv)
              ∈ (convert_decklist_entry d slot).issues) := by
  refine ⟨by simp [transform_player], rfl, ?_, ?_⟩
  · show ((transform_player d p).pokemon.flatMap PokemonExtraction.issues).isEmpty
        = true ↔ _
    rw [List.isEmpty_iff, List.flatMap_eq_nil_iff]
  · intro slot
    refine ⟨?_, ?_, ?_, ?_, ?_, ?_⟩
    · intro h
      refine mem_convert_issues d slot _ (Or.inr (Or.inr (Or.inr (Or.inr ?_))))
      simp only [species_issues, if_neg h]
      exact List.mem_singleton.mpr rfl
    · intro t ht htne htera
      refine mem_convert_issues d slot _ (Or.inl ?_)
      have hc : ¬ (TERA_TYPES.contains t = true) := fun hc => htera (List.elem_iff.mp hc)
      simp only [tera_issues, ht, if_pos (And.intro htne hc)]
      exact List.mem_singleton.mpr rfl
    · intro a ha hane hares
      refine mem_convert_issues d slot _ (Or.inr (Or.inl ?_))
      simp only [ability_issues, ha, if_pos (And.intro hane hares)]
      exact List.mem_singleton.mpr rfl
    · intro i hi hine hires
      refine mem_convert_issues d slot _ (Or.inr (Or.inr (Or.inl ?_)))
      simp only [item_issues, hi, if_pos (And.intro hine hires)]
      exact List.mem_singleton.mpr rfl
    · intro mv hmv hres
      refine mem_convert_issues_of_move d slot mv _ hmv ?_
      unfold convert_move
      rcases hr : resolve_move_id_t d.move_alias_map mv with _ | mid
      · simp
      · rw [hr] at hres
        have hmid : mid = "" := by
          by_contra hne
          exact hres (by simpa [opt_truthy] using hne)
        subst hmid
        simp
    · intro mv hmv mid meta sid hres hmid hmeta hsid hsidne hval
      refine mem_convert_issues_of_move d slot mv _ hmv ?_
      unfold convert_move
      rw [hres, hsid]
      simp only [if_pos hmid, hmeta, if_pos (And.intro hmid hsidne), hval]
      simp

/-- A slot with an unknown tera-type and, against an empty dataset, an
unresolvable species. -/
def c5_slot : Slot := { name := some "Flutter Mane", teratype := some "Sparkly" }

/-- Witness for C5: against the empty dataset, the unknown tera-type and the
unresolved species of `c5_slot` each append their issue string. -/
theorem claim_C5_witness :
    ("Unknown Tera Type 'Sparkly'")
      ∈ (convert_decklist_entry ({} : ShowdownData) c5_slot).issues
    ∧ ("Unable to resolve species '"
        ++ species_display ({} : ShowdownData) c5_slot ++ "'")
      ∈ (convert_decklist_entry ({} : ShowdownData) c5_slot).issues :=
  ⟨((claim_C5 {} {}).2.2.2 c5_slot).2.1 "Sparkly" rfl (by decide) (by decide),
   ((claim_C5 {} {}).2.2.2 c5_slot).1 (by decide)⟩

/-- `sortedStr` always emits a lexicographically sorted list. -/
theorem sortedStr_sorted (l : List String) : List.Sorted (· ≤ ·) (sortedStr l) := by
  have h := @List.sorted_mergeSort String (fun a b : String => decide (a ≤ b))
    (fun a b c hab hbc =>
      decide_eq_true (le_trans (of_decide_eq_true hab) (of_decide_eq_true hbc)))
    (fun a b => by rcases le_total a b with h | h <;> simp [h]) l
  exact h.imp fun hab => of_decide_eq_true hab

/-- C4.  For every species, every format whose banlist names a category tag
the species carries is excluded by the format gate (whether or not the
species id appears literally in the banlist); every id in the returned list
comes from a format that is neither tag-banned nor id-banned for the
species; and the returned list is sorted lexicographically. -/
theorem claim_C4 (d : ShowdownData) (s : String) (restrict : Bool) :
    List.Sorted (· ≤ ·) (determine_valid_formats d s restrict)
    ∧ (∀ fmt ∈ d.formats, ∀ tag, tag ∈ CATEGORY_TAGS → tag ∈ species_tags d s →
        tag ∈ fmt.banlist → format_gate s (species_tags d s) restrict fmt = none)
    ∧ ∀ fid ∈ determine_valid_formats d s restrict,
        ∃ fmt ∈ d.formats,
          format_gate s (species_tags d s) restrict fmt = some fid
          ∧ s ∉ fmt.banlist.map to_id
          ∧ ∀ tag ∈ fmt.banlist, tag ∈ CATEGORY_TAGS → tag ∉ species_tags d s := by
  refine ⟨?_, ?_, ?_⟩
  · simp only [determine_valid_formats]
    split
    · exact List.sorted_nil
    · split
      · exact List.sorted_nil
      · exact sortedStr_sorted _
  · intro fmt _ tag htag hstags hban
    have hany : fmt.banlist.any
        (fun t => CATEGORY_TAGS.contains t && (species_tags d s).contains t) = true :=
      List.any_eq_true.mpr
        ⟨tag, hban, by
          rw [Bool.and_eq_true]
          exact ⟨List.elem_iff.mpr htag, List.elem_iff.mpr hstags⟩⟩
    simp only [format_gate]
    split
    · rfl
    · split
      · rfl
      · split
        · rfl
        · split
          · rfl
          · simp [hany]
  · intro fid hfid
    simp only [determine_valid_formats] at hfid
    split at hfid
    · cases hfid
    · split at hfid
      · cases hfid
      · have hmem : fid ∈ d.formats.filterMap
            (format_gate s (species_tags d s) restrict) :=
          (List.mergeSort_perm _ _).mem_iff.mp hfid
        rcases List.mem_filterMap.mp hmem with ⟨fmt, hf, hgate⟩
        refine ⟨fmt, hf, hgate, ?_⟩
        simp only [format_gate] at hgate
        split at hgate
        · cases hgate
        · split at hgate
          · cases hgate
          · split at hgate
            · cases hgate
            · split at hgate
              · cases hgate
              · split at hgate
                · cases hgate
                · rename_i hvgc hfid0 hgt hbanid hbantag
                  refine ⟨fun hmemban => hbanid (List.elem_iff.mpr hmemban), ?_⟩
                  intro tag htagban htagcat htagsp
                  have hAny : (fmt.banlist.any
                      fun t => CATEGORY_TAGS.contains t && (species_tags d s).contains t)
                        = true :=
                    List.any_eq_true.mpr
                      ⟨tag, htagban, by
                        rw [Bool.and_eq_true]
                        exact ⟨List.elem_iff.mpr htagcat, List.elem_iff.mpr htagsp⟩⟩
                  exact hbantag hAny

/-- A concrete dataset for the C4 witness: Flutter Mane carries the
`Paradox` tag; one VGC doubles format bans the tag, one bans nothing. -/
def c4_data : ShowdownData :=
  { pokedex := [("fluttermane", { name := some "Flutter Mane", tags := some ["Paradox"] })],
    formats :=
      [{ name := "VGC Tag Ban", id := some "vgctagban", gameType := some "doubles",
         banlist := ["Paradox"] },
       { name := "VGC Open", id := some "vgcopen", gameType := some "doubles",
         banlist := [] }] }

/-- The tag-banning format of `c4_data`. -/
def c4_banfmt : FormatEntry :=
  { name := "VGC Tag Ban", id := some "vgctagban", gameType := some "doubles",
    banlist := ["Paradox"] }

/-- Witness for C4 at `c4_data`: the Paradox-banning format is excluded even
though `fluttermane` is not literally in its banlist, the surviving id
`vgcopen` comes from the untainted format, and the output is sorted. -/
theorem claim_C4_witness :
    format_gate "fluttermane" (species_tags c4_data "fluttermane") true c4_banfmt = none
    ∧ (∃ fmt ∈ c4_data.formats,
        format_gate "fluttermane" (species_tags c4_data "fluttermane") true fmt
          = some "vgcopen"
        ∧ "fluttermane" ∉ fmt.banlist.map to_id
        ∧ ∀ tag ∈ fmt.banlist, tag ∈ CATEGORY_TAGS →
            tag ∉ species_tags c4_data "fluttermane")
    ∧ List.Sorted (· ≤ ·) (determine_valid_formats c4_data "fluttermane" true) := by
  have hmem : "vgcopen" ∈ determine_valid_formats c4_data "fluttermane" true := by
    simp +decide [determine_valid_formats, sortedStr, List.mergeSort, List.merge,
      format_gate, species_tags, c4_data]
  exact ⟨(claim_C4 c4_data "fluttermane" true).2.1 c4_banfmt (by decide) "Paradox"
      (by decide) (by decide) (by decide),
    (claim_C4 c4_data "fluttermane" true).2.2 "vgcopen" hmem,
    (claim_C4 c4_data "fluttermane" true).1⟩

/-! ### Alias-index lemmas (C2) -/

theorem dfind_append (k : String) (m1 m2 : List (String × String)) :
    dfind k (m1 ++ m2) = (dfind k m1).or (dfind k m2) := by
  induction m1 with
  | nil => simp [dfind, Option.none_or]
  | cons p rest ih =>
    rcases p with ⟨k', v⟩
    simp only [List.cons_append, dfind]
    split
    · rfl
    · exact ih

/-- Lookup after one `insert_alias` step: an existing binding always wins;
otherwise the new token (when nonempty) maps to `sid`. -/
theorem dfind_insert_alias (m : List (String × String)) (tok sid t : String) :
    dfind t (insert_alias m tok sid)
      = (dfind t m).or (if t = tok ∧ tok ≠ "" then some sid else none) := by
  unfold insert_alias
  split
  · rename_i h
    rw [dfind_append]
    congr 1
    by_cases ht : t = tok
    · subst ht
      simp [dfind, h.1]
    · simp [dfind, ht, fun hc : t = tok ∧ tok ≠ "" => ht hc.1]
  · rename_i h
    by_cases hc : t = tok ∧ tok ≠ ""
    · rcases hc with ⟨rfl, hne⟩
      rcases hfound : dfind t m with _ | v
      · exact absurd ⟨hne, by rw [hfound]; rfl⟩ h
      · rfl
    · rw [if_neg hc, Option.or_none]

/-- Lookup after inserting every (normalized, nonempty) name of a record. -/
theorem dfind_insert_names (names : List String) (sid : String)
    (m : List (String × String)) (t : String) :
    dfind t (names.foldl (fun m n => insert_alias m (to_id n) sid) m)
      = (dfind t m).or
          (if t ∈ (names.map to_id).filter (· ≠ "") then some sid else none) := by
  induction names generalizing m with
  | nil => simp [Option.or_none]
  | cons n rest ih =>
    rw [List.foldl_cons, ih, dfind_insert_alias, Option.or_assoc]
    congr 1
    by_cases h1 : t = to_id n ∧ to_id n ≠ ""
    · rcases h1 with ⟨rfl, hne⟩
      have hmem : to_id n ∈ ((n :: rest).map to_id).filter (· ≠ "") := by
        rw [List.map_cons, List.filter_cons, if_pos (by simpa using hne)]
        exact List.mem_cons_self _ _
      rw [if_pos ⟨rfl, hne⟩, if_pos hmem]
      rfl
    · rw [if_neg h1, Option.none_or]
      have hmem : t ∈ ((n :: rest).map to_id).filter (· ≠ "")
          ↔ t ∈ (rest.map to_id).filter (· ≠ "") := by
        rw [List.map_cons, List.filter_cons]
        by_cases hne : to_id n ≠ ""
        · rw [if_pos (by simpa using hne)]
          constructor
          · intro hm
            rcases List.mem_cons.mp hm with rfl | hm
            · exact absurd ⟨rfl, hne⟩ h1
            · exact hm
          · exact fun hm => List.mem_cons_of_mem _ hm
        · rw [if_neg (by simpa using hne)]
      rw [if_congr hmem rfl rfl]

theorem dfind_insert_entry (m : List (String × String))
    (p : String × SpeciesEntry) (t : String) :
    dfind t (insert_entry m p)
      = (dfind t m).or (if t ∈ entry_tokens p.1 p.2 then some p.1 else none) :=
  dfind_insert_names (entry_names p.1 p.2) p.1 m t

/-- Lookup after folding `insert_entry` over a record list: the first record
(in processing order) owning the token wins. -/
theorem dfind_build_fold (l : List (String × SpeciesEntry))
    (m : List (String × String)) (t : String) :
    dfind t (l.foldl insert_entry m)
      = (dfind t m).or
          ((l.find? fun p => (entry_tokens p.1 p.2).contains t).map (·.1)) := by
  induction l generalizing m with
  | nil => simp [Option.or_none]
  | cons p rest ih =>
    rw [List.foldl_cons, ih, dfind_insert_entry, Option.or_assoc]
    congr 1
    rw [List.find?_cons]
    by_cases hc : t ∈ entry_tokens p.1 p.2
    · rw [if_pos hc]
      have : ((entry_tokens p.1 p.2).contains t) = true := List.elem_iff.mpr hc
      rw [this]
      rfl
    · rw [if_neg hc]
      have : ((entry_tokens p.1 p.2).contains t) = false := by
        rw [← Bool.not_eq_true]
        exact fun h => hc (List.elem_iff.mp h)
      rw [this, Option.none_or]

/-- C2.  The species alias index maps every token to the id of the first
record — in the order "base forms in pokedex order, then forme variants in
pokedex order" — one of whose surface forms normalizes to that token
(insert-only-if-absent makes the first writer win); consequently, whenever
any base-form record carries the token, the winner is the first such *base*
record, so a base form always beats a forme variant on a collision. -/
theorem claim_C2 (dex : List (String × SpeciesEntry)) (t : String) :
    dfind t (build_species_alias_map dex)
      = ((((dex.filter is_base_entry) ++ (dex.filter fun p => ¬ is_base_entry p)).find?
          fun p => (entry_tokens p.1 p.2).contains t).map (·.1))
    ∧ ((∃ p ∈ dex, is_base_entry p = true ∧ t ∈ entry_tokens p.1 p.2) →
        dfind t (build_species_alias_map dex)
          = (((dex.filter is_base_entry).find?
              fun p => (entry_tokens p.1 p.2).contains t).map (·.1))) := by
  have hmain : dfind t (build_species_alias_map dex)
      = ((((dex.filter is_base_entry) ++ (dex.filter fun p => ¬ is_base_entry p)).find?
          fun p => (entry_tokens p.1 p.2).contains t).map (·.1)) := by
    unfold build_species_alias_map
    rw [dfind_build_fold]
    rfl
  refine ⟨hmain, fun hbase => ?_⟩
  rcases hbase with ⟨p, hp, hb, htok⟩
  have hsome : ((dex.filter is_base_entry).find?
      fun p => (entry_tokens p.1 p.2).contains t).isSome = true :=
    List.find?_isSome.mpr ⟨p, List.mem_filter.mpr ⟨hp, hb⟩, List.elem_iff.mpr htok⟩
  rcases hq : (dex.filter is_base_entry).find?
      (fun p => (entry_tokens p.1 p.2).contains t) with _ | q
  · rw [hq] at hsome; cases hsome
  · rw [hmain, List.find?_append, hq]
    rfl

/-- A two-record pokedex listing the forme variant *before* its base form;
both records register the token `x` (the forme also registers its base's
bare name). -/
def c2_dex : List (String × SpeciesEntry) :=
  [("xgalar", { name := some "X-Galar", baseSpecies := some "X", forme := some "Galar" }),
   ("x", { name := some "X" })]

/-- Witness for C2: despite the forme variant coming first in pokedex order,
the colliding token `x` maps to the base form's id. -/
theorem claim_C2_witness :
    dfind "x" (build_species_alias_map c2_dex) = some "x" :=
  ((claim_C2 c2_dex "x").2
      ⟨("x", { name := some "X" }), by decide, by decide, by decide⟩).trans
    (by decide)

/-! ### Empty-token fuzzy matching lemmas (C10) -/

theorem string_eq_empty_iff (s : String) : s = "" ↔ s.data = [] := by
  cases s
  simp [String.ext_iff]

/-- Against an empty word the longest match is empty. -/
theorem bestMatch_nil_right (a : List Char) : bestMatch a [] = (0, 0, 0) := by
  unfold bestMatch
  rw [show ((List.range a.length).flatMap fun i =>
      (List.range ([] : List Char).length).map fun j => (i, j)) = [] from
    List.flatMap_eq_nil_iff.mpr (by simp)]
  rfl

/-- Against an empty word nothing matches. -/
theorem matchTotalF_nil_right (f : Nat) (a : List Char) : matchTotalF f a [] = 0 := by
  cases f with
  | zero => rfl
  | succ f => simp [matchTotalF, bestMatch_nil_right]

theorem matchTotal_nil_right (a : List Char) : matchTotal a [] = 0 :=
  matchTotalF_nil_right _ a

/-- A nonempty key can never clear the 0.72 cutoff against the empty word. -/
theorem ratioGE72_nil_right (x : String) (hx : x ≠ "") :
    ratioGE72 x.data [] = false := by
  have hlen : x.data.length ≠ 0 := by
    intro h
    exact hx ((string_eq_empty_iff x).mpr (List.length_eq_zero.mp h))
  unfold ratioGE72
  rw [matchTotal_nil_right]
  apply decide_eq_false
  omega

/-- Fuzzy matching the empty token against an index with no empty key finds
nothing. -/
theorem getCloseMatch1_empty_word (keys : List String)
    (hkeys : ∀ k ∈ keys, k ≠ "") : getCloseMatch1 "" keys = none := by
  have : keys.foldl (closeStep ("" : String).data) none = none := by
    induction keys with
    | nil => rfl
    | cons k rest ih =>
      rw [List.foldl_cons]
      have hk : closeStep ("" : String).data none k = none := by
        unfold closeStep
        rw [show ("" : String).data = [] from rfl,
          ratioGE72_nil_right k (hkeys k (List.mem_cons_self _ _))]
        rfl
      rw [hk]
      exact ih fun k hk' => hkeys k (List.mem_cons_of_mem _ hk')
  unfold getCloseMatch1
  rw [this]
  rfl

/-- A key list with nonempty keys looks up the empty string to nothing. -/
theorem dfind_empty_none (m : List (String × String))
    (hkeys : ∀ kv ∈ m, kv.1 ≠ "") : dfind "" m = none := by
  induction m with
  | nil => rfl
  | cons kv rest ih =>
    rcases kv with ⟨k, v⟩
    have hk : k ≠ "" := hkeys (k, v) (List.mem_cons_self _ _)
    simp only [dfind]
    rw [if_neg fun h => hk h.symm]
    exact ih fun kv hkv => hkeys kv (List.mem_cons_of_mem _ hkv)

/-- `dedupFirstF` preserves an all-elements property. -/
theorem dedupFirstF_all {p : String → Prop} :
    ∀ (f : Nat) (l : List String), (∀ x ∈ l, p x) → ∀ y ∈ dedupFirstF f l, p y := by
  intro f
  induction f with
  | zero =>
    intro l _ y hy
    simp [dedupFirstF] at hy
  | succ f ih =>
    intro l hall y hy
    cases l with
    | nil => simp [dedupFirstF] at hy
    | cons x rest =>
      simp only [dedupFirstF] at hy
      rcases List.mem_cons.mp hy with rfl | hy'
      · exact hall y (List.mem_cons_self _ _)
      · exact ih _ (fun z hz => hall z (List.mem_cons_of_mem _ (List.mem_filter.mp hz).1))
          y hy'

theorem dedupFirst_all {p : String → Prop} (l : List String)
    (hall : ∀ x ∈ l, p x) : ∀ y ∈ dedupFirst l, p y :=
  dedupFirstF_all l.length l hall

/-- The longest-token fold over all-empty tokens yields the empty token. -/
theorem foldl_maxlen_empty :
    ∀ (l : List String) (b : String), (∀ x ∈ l, x = "") → b = "" →
      l.foldl (fun b x => if x.length > b.length then x else b) b = "" := by
  intro l
  induction l with
  | nil => intro b _ hb; exact hb
  | cons x rest ih =>
    intro b hall hb
    rw [List.foldl_cons]
    have hx : x = "" := hall x (List.mem_cons_self _ _)
    refine ih _ (fun z hz => hall z (List.mem_cons_of_mem _ hz)) ?_
    subst hx
    subst hb
    simp

/-- C10 (amended).  For every input label whose move-label normalization is
the empty token and every alias map without an empty key: the fuzzy stage
never matches on the empty token; the showdown_manager resolver returns
exactly the index lookup of the label's bare alphanumeric token (absent when
unregistered); and the move_resolver variant returns absent whenever all of
its derived candidate tokens are also empty — in particular neither resolver
raises. -/
theorem claim_C10 :
    (∀ (m : List (String × String)) (raw : String),
      (∀ kv ∈ m, kv.1 ≠ "") → normalize_move_label raw = "" →
      resolve_move_id m raw = dfind (to_id raw) m)
    ∧ (∀ (m : List (String × String)) (raw : String),
      (∀ kv ∈ m, kv.1 ≠ "") → normalize_move_label raw = "" →
      (∀ c ∈ normalize_move_input raw, normalize_move_label c = "") →
      mr_resolve_move_id m raw = none) := by
  constructor
  · intro m raw hkeys hnorm
    have hkeys' : ∀ k ∈ m.map (·.1), k ≠ "" := by
      intro k hk
      rcases List.mem_map.mp hk with ⟨kv, hkv, rfl⟩
      exact hkeys kv hkv
    unfold resolve_move_id
    rw [hnorm, dfind_empty_none m hkeys]
    rcases hfb : dfind (to_id raw) m with _ | v
    · by_cases hm : m = []
      · rw [if_pos hm]
      · rw [if_neg hm, getCloseMatch1_empty_word _ hkeys']
    · rfl
  · intro m raw hkeys hnorm hall
    unfold mr_resolve_move_id
    have htokens0 : ∀ t ∈ dedupFirst ((normalize_move_input raw).map normalize_move_label),
        t = "" := by
      refine dedupFirst_all _ ?_
      intro x hx
      rcases List.mem_map.mp hx with ⟨c, hc, rfl⟩
      exact hall c hc
    rcases hd : dedupFirst ((normalize_move_input raw).map normalize_move_label)
        with _ | ⟨t0, rest⟩
    · simp [hnorm]
    · rw [hd] at htokens0
      have hfind : (t0 :: rest).findSome? (fun t => dfind t m) = none := by
        rw [List.findSome?_eq_none_iff]
        intro t ht
        rw [htokens0 t ht]
        exact dfind_empty_none m hkeys
      have hseed : rest.foldl (fun b x => if x.length > b.length then x else b) t0 = "" :=
        foldl_maxlen_empty rest t0
          (fun z hz => htokens0 z (List.mem_cons_of_mem _ hz))
          (htokens0 t0 (List.mem_cons_self _ _))
      simp [hfind, hseed]

/-- C10 counterexample moves payload: a single move whose display name
`Mo-De` normalizes to the token `mode`. -/
def c10_moves : List (String × MoveEntry) := [("mode", { name := some "Mo-De" })]

/-- The move alias map built from `c10_moves`. -/
def c10_map : List (String × String) :=
  build_simple_alias_map normalize_move_label c10_moves

/-- C10 counterexample: the label `Mode` normalizes to the empty token, yet
the showdown_manager resolver returns an id — found by the exact `to_id`
fallback, not by approximate matching — instead of the claimed `None`. -/
theorem claim_C10_counterexample :
    normalize_move_label "Mode" = "" ∧ resolve_move_id c10_map "Mode" = some "mode" := by
  decide

/-- A small alias map with nonempty keys for the C10 witness. -/
def c10_wmap : List (String × String) := [("hydropump", "hydropump")]

/-- Witness for C10 on concrete punctuation-and-stopword labels. -/
theorem claim_C10_witness :
    resolve_move_id c10_wmap "  --  " = dfind (to_id "  --  ") c10_wmap
    ∧ mr_resolve_move_id c10_wmap "---" = none :=
  ⟨claim_C10.1 c10_wmap "  --  " (by decide) (by decide),
   claim_C10.2 c10_wmap "---" (by decide) (by decide) (by decide)⟩

/-! ### Fuzzy best-match lemmas (C9) -/

/-- A found key is among the map's keys. -/
theorem dfind_isSome_mem (k : String) (m : List (String × String))
    (h : (dfind k m).isSome = true) : k ∈ m.map (·.1) := by
  induction m with
  | nil => cases h
  | cons kv rest ih =>
    rcases kv with ⟨k', v⟩
    simp only [dfind] at h
    by_cases hk : k = k'
    · subst hk; exact List.mem_cons_self _ _
    · rw [if_neg hk] at h
      exact List.mem_cons_of_mem _ (ih h)

/-- Once the running best of the `get_close_matches` fold is the strict
maximum, later candidates never displace it. -/
theorem foldl_closeStep_keep (w : List Char) (best : String) :
    ∀ keys : List String,
      (∀ k ∈ keys, k ≠ best →
        matchTotal k.data w * (best.data.length + w.length)
          < matchTotal best.data w * (k.data.length + w.length)) →
      keys.foldl (closeStep w) (some (best, matchTotal best.data w))
        = some (best, matchTotal best.data w) := by
  intro keys
  induction keys with
  | nil => intro _; rfl
  | cons k rest ih =>
    intro hstrict
    rw [List.foldl_cons]
    have hnot : ¬ (scorePairGt w (k, matchTotal k.data w)
        (best, matchTotal best.data w) = true) := by
      unfold scorePairGt
      rw [decide_eq_true_eq]
      intro h
      by_cases hk : k = best
      · subst hk
        rcases h with hlt | ⟨-, hstr⟩
        · exact lt_irrefl _ hlt
        · exact lt_irrefl _ hstr
      · have hw := hstrict k (List.mem_cons_self _ _) hk
        rcases h with hlt | ⟨heq, -⟩
        · exact lt_asymm hw hlt
        · rw [heq] at hw; exact lt_irrefl _ hw
    have hstep : closeStep w (some (best, matchTotal best.data w)) k
        = some (best, matchTotal best.data w) := by
      unfold closeStep
      split
      · dsimp only
        rw [if_neg hnot]
      · rfl
    rw [hstep]
    exact ih fun k' hk' hne => hstrict k' (List.mem_cons_of_mem _ hk') hne

/-- The `get_close_matches` fold returns the strict maximum whenever the
running accumulator is empty or strictly worse than it. -/
theorem foldl_closeStep_main (w : List Char) (best : String) :
    ∀ (keys : List String) (acc : Option (String × Nat)),
      best ∈ keys →
      ratioGE72 best.data w = true →
      (∀ k ∈ keys, k ≠ best →
        matchTotal k.data w * (best.data.length + w.length)
          < matchTotal best.data w * (k.data.length + w.length)) →
      (acc = none ∨ ∃ y, acc = some (y, matchTotal y.data w) ∧ y ≠ best ∧
        matchTotal y.data w * (best.data.length + w.length)
          < matchTotal best.data w * (y.data.length + w.length)) →
      keys.foldl (closeStep w) acc = some (best, matchTotal best.data w) := by
  intro keys
  induction keys with
  | nil => intro acc hmem; cases hmem
  | cons k rest ih =>
    intro acc hmem hge hstrict hacc
    rw [List.foldl_cons]
    by_cases hk : k = best
    · subst hk
      have hstep : closeStep w acc k = some (k, matchTotal k.data w) := by
        unfold closeStep
        rw [if_pos hge]
        rcases hacc with rfl | ⟨y, rfl, hyne, hylt⟩
        · rfl
        · dsimp only
          rw [if_pos (show scorePairGt w (k, matchTotal k.data w)
              (y, matchTotal y.data w) = true by
            unfold scorePairGt
            rw [decide_eq_true_eq]
            exact Or.inl hylt)]
      rw [hstep]
      exact foldl_closeStep_keep w k rest
        fun k' hk' hne => hstrict k' (List.mem_cons_of_mem _ hk') hne
    · have hmem' : best ∈ rest := by
        rcases List.mem_cons.mp hmem with h | h
        · exact absurd h.symm hk
        · exact h
      refine ih (closeStep w acc k) hmem' hge
        (fun k' hk' hne => hstrict k' (List.mem_cons_of_mem _ hk') hne) ?_
      unfold closeStep
      split
      · rcases hacc with rfl | ⟨y, rfl, hyne, hylt⟩
        · exact Or.inr ⟨k, rfl, hk, hstrict k (List.mem_cons_self _ _) hk⟩
        · dsimp only
          split
          · exact Or.inr ⟨k, rfl, hk, hstrict k (List.mem_cons_self _ _) hk⟩
          · exact Or.inr ⟨y, rfl, hyne, hylt⟩
      · exact hacc

/-- `get_close_matches(word, keys, 1, 0.72)` returns `best` whenever `best`
clears the cutoff and every other key matches strictly worse. -/
theorem getCloseMatch1_eq_best (word best : String) (keys : List String)
    (hmem : best ∈ keys)
    (hge : ratioGE72 best.data word.data = true)
    (hstrict : ∀ k ∈ keys, k ≠ best →
      matchTotal k.data word.data * (best.data.length + word.data.length)
        < matchTotal best.data word.data * (k.data.length + word.data.length)) :
    getCloseMatch1 word keys = some best := by
  unfold getCloseMatch1
  rw [foldl_closeStep_main word.data best keys none hmem hge hstrict (Or.inl rfl)]
  rfl

/-- C9 (amended).  Provided the move alias index registers no token for
`Hidro Pomp` itself and every registered token other than `hydropump`
matches `hidropomp` strictly worse than `hydropump` does,
`resolveMove("Hidro Pomp")` resolves — via approximate matching at
similarity threshold 0.72 — to the same canonical id as
`resolveMove("Hydro Pump")`; and whenever the index registers the token
`electroshot`, `resolveMove("Electro Shot (Singles)")` equals
`resolveMove("Electro Shot")` unconditionally. -/
theorem claim_C9 :
    (∀ m : List (String × String),
      dfind "hidropomp" m = none →
      (dfind "hydropump" m).isSome = true →
      (∀ k ∈ m.map (·.1), k ≠ "hydropump" →
        matchTotal k.data ("hidropomp" : String).data
            * (("hydropump" : String).data.length + ("hidropomp" : String).data.length)
          < matchTotal ("hydropump" : String).data ("hidropomp" : String).data
            * (k.data.length + ("hidropomp" : String).data.length)) →
      resolve_move_id m "Hidro Pomp" = resolve_move_id m "Hydro Pump")
    ∧ (∀ m : List (String × String),
      (dfind "electroshot" m).isSome = true →
      resolve_move_id m "Electro Shot (Singles)" = resolve_move_id m "Electro Shot") := by
  constructor
  · intro m h1 h2 h3
    obtain ⟨v, hv⟩ := Option.isSome_iff_exists.mp h2
    have hne : ¬ m = [] := by
      rintro rfl
      cases hv
    have hmem : "hydropump" ∈ m.map (·.1) := dfind_isSome_mem _ _ h2
    have hbest : getCloseMatch1 "hidropomp" (m.map (·.1)) = some "hydropump" :=
      getCloseMatch1_eq_best "hidropomp" "hydropump" (m.map (·.1)) hmem (by decide) h3
    have hn1 : normalize_move_label "Hidro Pomp" = "hidropomp" := by decide
    have hn2 : to_id "Hidro Pomp" = "hidropomp" := by decide
    have hn3 : normalize_move_label "Hydro Pump" = "hydropump" := by decide
    have hL : resolve_move_id m "Hidro Pomp" = some v := by
      simp only [resolve_move_id, hn1, hn2, h1, if_neg hne, hbest, hv]
    have hR : resolve_move_id m "Hydro Pump" = some v := by
      simp only [resolve_move_id, hn3, hv]
    rw [hL, hR]
  · intro m h
    obtain ⟨v, hv⟩ := Option.isSome_iff_exists.mp h
    have e1 : normalize_move_label "Electro Shot (Singles)" = "electroshot" := by decide
    have e2 : normalize_move_label "Electro Shot" = "electroshot" := by decide
    simp only [resolve_move_id, e1, e2, hv]

/-- C9 counterexample moves payload: a move `x` whose display name
`Hidro-Pomp` normalizes to the very token the misspelled label produces. -/
def c9_moves : List (String × MoveEntry) :=
  [("x", { name := some "Hidro-Pomp" }),
   ("hydropump", { name := some "Hydro Pump" }),
   ("electroshot", { name := some "Electro Shot" })]

/-- The move alias map built from `c9_moves`. -/
def c9_map : List (String × String) :=
  build_simple_alias_map normalize_move_label c9_moves

/-- C9 counterexample: a loaded dataset registering the canonical tokens of
`Hydro Pump` and `Electro Shot` on which `resolveMove("Hidro Pomp")` — served
by an exact alias hit for `hidropomp` — differs from
`resolveMove("Hydro Pump")`. -/
theorem claim_C9_counterexample :
    (dfind "hydropump" c9_map).isSome = true
    ∧ (dfind "electroshot" c9_map).isSome = true
    ∧ resolve_move_id c9_map "Hidro Pomp" ≠ resolve_move_id c9_map "Hydro Pump" := by
  decide

/-- The moves payload for the C9 witness: just the two canonical moves. -/
def c9_wmoves : List (String × MoveEntry) :=
  [("hydropump", { name := some "Hydro Pump" }),
   ("electroshot", { name := some "Electro Shot" })]

/-- The move alias map built from `c9_wmoves`. -/
def c9_wmap : List (String × String) :=
  build_simple_alias_map normalize_move_label c9_wmoves

/-- Witness for C9 on the two-move index. -/
theorem claim_C9_witness :
    resolve_move_id c9_wmap "Hidro Pomp" = resolve_move_id c9_wmap "Hydro Pump"
    ∧ resolve_move_id c9_wmap "Electro Shot (Singles)"
        = resolve_move_id c9_wmap "Electro Shot" :=
  ⟨claim_C9.1 c9_wmap (by decide) (by decide) (by decide),
   claim_C9.2 c9_wmap (by decide)⟩

end PDB
